import Mathlib

/- Shallow embedding of the Hathaway Metronome v10 core (src/script.js,
   src/microphone-input.js, and the enhanced detector shipped in
   src/dist). JavaScript numbers are modelled as integers where the code
   only ever holds integers (timestamps, tempi, counters) and as
   rationals where genuine division occurs (timer intervals, averages,
   audio feature values). -/

namespace Metronome

/-- Subdivision setting of the clock (script.js, this.subdivision). -/
inductive Subdivision
  | quarter
  | eighth
  | sixteenth
deriving DecidableEq, Repr

/-- Pattern mode (script.js, this.patternMode: the strings none / pattern). -/
inductive PatternMode
  | offMode
  | pattern
deriving DecidableEq, Repr

/-- Phase of the silent-bar pattern engine (this.patternPhase). -/
inductive PatternPhase
  | active
  | silent
deriving DecidableEq, Repr

/-- State of MetronomeCore (script.js constructor).  The armed periodic
timer is modelled by its interval in milliseconds (intervalId field:
none when no timer is armed). -/
structure State where
  isPlaying : Bool
  tempo : ℤ
  beatsPerBar : ℕ
  currentBeat : ℕ
  intervalId : Option ℚ
  timeSignatureNum : ℕ
  timeSignatureDen : ℕ
  subdivision : Subdivision
  currentSubdivision : ℕ
  emphasizedBeats : List ℕ
  playSubdivisionSounds : Bool
  barCount : ℕ
  beatCount : ℕ
  patternMode : PatternMode
  activeBars : ℤ
  silentBarsPattern : ℤ
  patternPhase : PatternPhase
  patternBarsRemaining : ℤ
  isSilent : Bool
  mutePatternEnabled : Bool
  currentBar : ℕ
  isCurrentBarMuted : Bool
  tapTimes : List ℤ
deriving DecidableEq, Repr

/-- Initial state from the MetronomeCore constructor. -/
def initState : State where
  isPlaying := false
  tempo := 120
  beatsPerBar := 4
  currentBeat := 1
  intervalId := none
  timeSignatureNum := 4
  timeSignatureDen := 4
  subdivision := Subdivision.quarter
  currentSubdivision := 0
  emphasizedBeats := [1]
  playSubdivisionSounds := false
  barCount := 0
  beatCount := 0
  patternMode := PatternMode.offMode
  activeBars := 2
  silentBarsPattern := 2
  patternPhase := PatternPhase.active
  patternBarsRemaining := 0
  isSilent := false
  mutePatternEnabled := false
  currentBar := 1
  isCurrentBarMuted := false
  tapTimes := []

/-- subdivisionsPerBeat switch (script.js, nextSubdivision and start). -/
def subdivisionsPerBeat : Subdivision → ℕ
  | Subdivision.quarter => 1
  | Subdivision.eighth => 2
  | Subdivision.sixteenth => 4

/-- resetPattern (script.js). -/
def resetPattern (s : State) : State :=
  { s with currentBar := 1, isCurrentBarMuted := false,
           patternPhase := PatternPhase.active,
           patternBarsRemaining := s.activeBars, isSilent := false }

/-- start (script.js): no-op when already playing; otherwise resets the
position to beat 1, subdivision 0, resets the pattern engine, and arms
the timer with interval (60/tempo)*1000 / subdivisionsPerBeat ms. -/
def start (s : State) : State :=
  if s.isPlaying then s
  else
    let s1 := resetPattern
      { s with isPlaying := true, currentBeat := 1, currentSubdivision := 0 }
    let iv : ℚ := (60000 / (s.tempo : ℚ)) / (subdivisionsPerBeat s.subdivision : ℚ)
    { s1 with intervalId := some iv }

/-- stop (script.js): no-op when not playing; otherwise clears the
playing flag, resets currentBeat to 1 and currentSubdivision to 0, and
cancels the timer. -/
def stop (s : State) : State :=
  if s.isPlaying then
    { s with isPlaying := false, currentBeat := 1, currentSubdivision := 0,
             intervalId := none }
  else s

/-- nextBar (script.js): simple-mode mute handling followed by the
advanced pattern state machine. -/
def nextBar (s : State) : State :=
  let s1 :=
    if s.mutePatternEnabled then
      let cb := if 2 < s.currentBar + 1 then 1 else s.currentBar + 1
      { s with currentBar := cb, isCurrentBarMuted := decide (cb = 2) }
    else s
  if s1.patternMode = PatternMode.pattern then
    let r := s1.patternBarsRemaining - 1
    if r ≤ 0 then
      if s1.patternPhase = PatternPhase.active then
        { s1 with patternPhase := PatternPhase.silent,
                  patternBarsRemaining := s1.silentBarsPattern, isSilent := true }
      else
        { s1 with patternPhase := PatternPhase.active,
                  patternBarsRemaining := s1.activeBars, isSilent := false }
    else { s1 with patternBarsRemaining := r }
  else s1

/-- nextBeat (script.js). -/
def nextBeat (s : State) : State :=
  let s1 := { s with currentBeat := s.currentBeat + 1, beatCount := s.beatCount + 1 }
  if s1.beatsPerBar < s1.currentBeat then
    nextBar { s1 with currentBeat := 1, barCount := s1.barCount + 1 }
  else s1

/-- nextSubdivision (script.js): the body of each timer tick. -/
def nextSubdivision (s : State) : State :=
  let s1 := { s with currentSubdivision := s.currentSubdivision + 1 }
  if subdivisionsPerBeat s1.subdivision ≤ s1.currentSubdivision then
    nextBeat { s1 with currentSubdivision := 0 }
  else s1

/-- setTempo (script.js): clamp to the range 30..300, then restart the
clock when it is running. -/
def setTempo (t : ℤ) (s : State) : State :=
  let s1 := { s with tempo := max 30 (min 300 t) }
  if s1.isPlaying then start (stop s1) else s1

/-- adjustTempo (script.js). -/
def adjustTempo (d : ℤ) (s : State) : State :=
  setTempo (s.tempo + d) s

/-- setBeatsPerBar (script.js). -/
def setBeatsPerBar (b : ℕ) (s : State) : State :=
  resetPattern { s with beatsPerBar := b, currentBeat := 1, timeSignatureNum := b }

/-- setTimeSignature (script.js): parse the numerator and denominator
of the signature string and delegate to setBeatsPerBar. -/
def setTimeSignature (num den : ℕ) (s : State) : State :=
  setBeatsPerBar num { s with timeSignatureNum := num, timeSignatureDen := den }

/-- setSubdivision (script.js): stores the new subdivision and nothing
else. -/
def setSubdivision (sub : Subdivision) (s : State) : State :=
  { s with subdivision := sub }

/-- setPatternMode (script.js). -/
def setPatternMode (m : PatternMode) (s : State) : State :=
  resetPattern { s with patternMode := m }

/-- setMutePattern (script.js). -/
def setMutePattern (b : Bool) (s : State) : State :=
  resetPattern { s with mutePatternEnabled := b }

/-- setEmphasizedBeats (script.js). -/
def setEmphasizedBeats (l : List ℕ) (s : State) : State :=
  { s with emphasizedBeats := l }

/-- resetCounters (script.js). -/
def resetCounters (s : State) : State :=
  { s with barCount := 0, beatCount := 0 }

/-- Consecutive differences of a list of timestamps (the intervals
loops in tapTempo and calculateTempo). -/
def diffs : List ℤ → List ℤ
  | [] => []
  | [_] => []
  | a :: b :: rest => (b - a) :: diffs (b :: rest)

/-- Arithmetic mean of a list of integers, as a rational. -/
def meanQ (l : List ℤ) : ℚ :=
  (l.sum : ℚ) / (l.length : ℚ)

/-- BPM estimate from a list of tap timestamps: Math.round of 60000
divided by the mean consecutive interval (tapTempo, script.js). -/
def bpmOfTimes (l : List ℤ) : ℤ :=
  round ((60000 : ℚ) / meanQ (diffs l))

/-- tapTempo (script.js): append the tap time, evict the oldest beyond
a window of 4, and when at least 2 taps are present apply the rounded
BPM estimate if it lies in 30..300. -/
def tapTempo (now : ℤ) (s : State) : State :=
  let l1 := s.tapTimes ++ [now]
  let l2 := if 4 < l1.length then l1.tail else l1
  let s1 := { s with tapTimes := l2 }
  if 2 ≤ l2.length then
    let newTempo := bpmOfTimes l2
    if 30 ≤ newTempo ∧ newTempo ≤ 300 then setTempo newTempo s1 else s1
  else s1

/-- shouldBeSilent check at the top of playBeat (script.js). -/
def shouldBeSilent (s : State) : Bool :=
  (s.mutePatternEnabled && s.isCurrentBarMuted) ||
    (decide (s.patternMode = PatternMode.pattern) && s.isSilent)

/-- Sound classes produced by playClassicClick (script.js). -/
inductive ClickKind
  | emphasized
  | mainBeat
  | subdivision
deriving DecidableEq, Repr

/-- Branch structure of playClassicClick (script.js): emphasized wins,
then main beat, else subdivision. -/
def classicClick (isEmphasized isMainBeat : Bool) : ClickKind :=
  if isEmphasized then ClickKind.emphasized
  else if isMainBeat then ClickKind.mainBeat
  else ClickKind.subdivision

/-- The (frequency, gain) pair playClassicClick assigns to each class. -/
def classicClickParams : ClickKind → ℚ × ℚ
  | ClickKind.emphasized => (1200, 8/10)
  | ClickKind.mainBeat => (800, 6/10)
  | ClickKind.subdivision => (600, 3/10)

/-- playBeat (script.js) with the classic sound: none when the tick is
silenced by a pattern or suppressed as a subdivision, otherwise the
class passed to playClassicClick.  isEmphasized is computed from
currentBeat alone, isMainBeat from currentSubdivision. -/
def playBeatClass (s : State) : Option ClickKind :=
  if shouldBeSilent s then none
  else
    let isMainBeat := decide (s.currentSubdivision = 0)
    if !isMainBeat && !s.playSubdivisionSounds then none
    else some (classicClick (s.emphasizedBeats.contains s.currentBeat) isMainBeat)

/-- Closed form of the state after the initial tick of start() followed
by n timer ticks, at the default settings (tempo 120, 4 beats per bar,
quarter subdivision): beat cycles 1,2,3,4, the bar counter advances
every 4 ticks, the beat counter every tick. -/
def c4State (n : ℕ) : State where
  isPlaying := true
  tempo := 120
  beatsPerBar := 4
  currentBeat := n % 4 + 1
  intervalId := some 500
  timeSignatureNum := 4
  timeSignatureDen := 4
  subdivision := Subdivision.quarter
  currentSubdivision := 0
  emphasizedBeats := [1]
  playSubdivisionSounds := false
  barCount := n / 4
  beatCount := n
  patternMode := PatternMode.offMode
  activeBars := 2
  silentBarsPattern := 2
  patternPhase := PatternPhase.active
  patternBarsRemaining := 2
  isSilent := false
  mutePatternEnabled := false
  currentBar := 1
  isCurrentBarMuted := false
  tapTimes := []

/-- Fresh pattern-mode session with activeBars 2 and silentBarsPattern 1
(the scenario of the spec's pattern example): pattern parameters set and
resetPattern applied, as the input change handlers do. -/
def patternSession : State :=
  resetPattern { initState with patternMode := PatternMode.pattern,
                                activeBars := 2, silentBarsPattern := 1 }

/-- Invariant: whenever the clock is stopped, the beat position is
(1, 0), the position start() establishes. -/
def stoppedInv (s : State) : Prop :=
  s.isPlaying = false → s.currentBeat = 1 ∧ s.currentSubdivision = 0

end Metronome

namespace Mic

/-- Detection mode of the enhanced detector (dist microphone-input.js,
this.detectionMode). -/
inductive DetectionMode
  | bass
  | drums
  | guitar
  | mixed
deriving DecidableEq, Repr

/-- Threshold set returned by getDetectionThresholds. -/
structure Thresholds where
  volume : ℚ
  frequency : ℚ
  onset : ℚ
  volumeIncrease : ℚ
deriving DecidableEq, Repr

/-- getDetectionThresholds (dist microphone-input.js): per-mode scaling
of the sensitivity-derived beat threshold and the onset threshold. -/
def getDetectionThresholds (mode : DetectionMode)
    (beatThreshold onsetThreshold : ℚ) : Thresholds :=
  match mode with
  | DetectionMode.bass =>
      ⟨beatThreshold * (8/10), beatThreshold * (5/10), onsetThreshold * (6/10), 105/100⟩
  | DetectionMode.drums =>
      ⟨beatThreshold * (12/10), beatThreshold * (9/10), onsetThreshold * (15/10), 13/10⟩
  | DetectionMode.guitar =>
      ⟨beatThreshold * (15/100), beatThreshold * (2/10), onsetThreshold * (5/100), 102/100⟩
  | DetectionMode.mixed =>
      ⟨beatThreshold * (2/10), beatThreshold * (3/10), onsetThreshold * (1/10), 11/10⟩

/-- Last n entries of a list (the slice with a negative start index). -/
def lastN (n : ℕ) (l : List ℤ) : List ℤ :=
  l.drop (l.length - n)

/-- Mean of a list of integers as a rational (reduce/length). -/
def meanQ (l : List ℤ) : ℚ :=
  (l.sum : ℚ) / (l.length : ℚ)

/-- detectBeatEnhanced (dist microphone-input.js): debounce by
minBeatInterval, then fire when any of the five methods fires: volume
above the mode-scaled volume threshold; a 50 percent volume increase
over the mean of the last 5 beatHistory entries; band volume above the
mode-scaled frequency threshold; onset strength above the mode-scaled
onset threshold; or at least two of the four indicators (with the
increase ratio compared against 1.3) holding at once. -/
def detectBeatEnhanced (now lastBeatTime minBeatInterval : ℤ)
    (mode : DetectionMode) (beatThreshold onsetThreshold : ℚ)
    (beatHistory : List ℤ)
    (volume frequencyVolume onsetStrength : ℚ) : Bool :=
  if now - lastBeatTime < minBeatInterval then false
  else
    let th := getDetectionThresholds mode beatThreshold onsetThreshold
    let recent := lastN 5 beatHistory
    let volInc : ℚ := volume / (meanQ recent + 1/1000)
    let m1 : Bool := decide (th.volume < volume)
    let m2 : Bool := decide (2 ≤ recent.length) && decide ((3/2 : ℚ) < volInc)
    let m3 : Bool := decide (th.frequency < frequencyVolume)
    let m4 : Bool := decide (th.onset < onsetStrength)
    let cnt : ℕ :=
      (if th.volume < volume then 1 else 0) +
      (if th.frequency < frequencyVolume then 1 else 0) +
      (if th.onset < onsetStrength then 1 else 0) +
      (if 2 ≤ recent.length ∧ (13/10 : ℚ) < volInc then 1 else 0)
    m1 || m2 || m3 || m4 || decide (2 ≤ cnt)

/-- State of the mic tempo tracker (src/microphone-input.js). -/
structure MicState where
  beatHistory : List ℤ
  lastBeatTime : ℤ
  minBeatInterval : ℤ
  maxBeatInterval : ℤ
  detectedTempo : ℤ
  tempoHistory : List ℤ
deriving DecidableEq, Repr

/-- Initial tracker state from the constructor
(src/microphone-input.js). -/
def initMic : MicState where
  beatHistory := []
  lastBeatTime := 0
  minBeatInterval := 200
  maxBeatInterval := 2000
  detectedTempo := 120
  tempoHistory := []

/-- The valid-interval filter of calculateTempo: consecutive
differences of the beat history restricted to the window
minBeatInterval..maxBeatInterval. -/
def validIntervals (s : MicState) : List ℤ :=
  (Metronome.diffs s.beatHistory).filter
    (fun i => s.minBeatInterval ≤ i ∧ i ≤ s.maxBeatInterval)

/-- The 5-entry FIFO step on the tempo history (the length check and
shift in calculateTempo). -/
def fifo5 (l : List ℤ) : List ℤ :=
  if 5 < l.length then l.tail else l

/-- calculateTempo (src/microphone-input.js): filter the intervals,
average, round to BPM, and when the BPM is in 30..300 push it into the
5-entry tempo history and report the rounded mean of that history. -/
def calculateTempo (s : MicState) : MicState :=
  if s.beatHistory.length < 2 then s
  else
    if validIntervals s = [] then s
    else
      if 30 ≤ round ((60000 : ℚ) / meanQ (validIntervals s)) ∧
          round ((60000 : ℚ) / meanQ (validIntervals s)) ≤ 300 then
        { s with
          tempoHistory :=
            fifo5 (s.tempoHistory ++ [round ((60000 : ℚ) / meanQ (validIntervals s))]),
          detectedTempo :=
            round (meanQ (fifo5
              (s.tempoHistory ++ [round ((60000 : ℚ) / meanQ (validIntervals s))]))) }
      else s

/-- The beat-history update of processBeat: append the onset time and
keep only entries from the last 10 seconds. -/
def prune (now : ℤ) (l : List ℤ) : List ℤ :=
  (l ++ [now]).filter (fun t => now - 10000 < t)

/-- processBeat (src/microphone-input.js): record the onset time, prune
the history to the last 10 seconds, and recompute the tempo when at
least 2 onsets remain. -/
def processBeat (now : ℤ) (s : MicState) : MicState :=
  if 2 ≤ (prune now s.beatHistory).length then
    calculateTempo { s with lastBeatTime := now, beatHistory := prune now s.beatHistory }
  else { s with lastBeatTime := now, beatHistory := prune now s.beatHistory }

/-- Population variance of a list of integers, as a rational (the
variance accumulation in calculateConfidence). -/
def varianceQ (l : List ℤ) : ℚ :=
  ((l.map (fun x => ((x : ℚ) - meanQ l) ^ 2)).sum) / (l.length : ℚ)

/-- Confidence as a function of the variance: clamp of 100 minus twice
the standard deviation (calculateConfidence, src/microphone-input.js). -/
noncomputable def confOfVar (v : ℝ) : ℝ :=
  max 0 (min 100 (100 - 2 * Real.sqrt v))

/-- calculateConfidence (src/microphone-input.js): 0 for histories with
fewer than 2 entries, else the clamped standard-deviation score. -/
noncomputable def calculateConfidence (l : List ℤ) : ℝ :=
  if l.length < 2 then 0 else confOfVar ((varianceQ l : ℚ) : ℝ)

/-- Tracker state after onsets separated by 500, 505, 495 and 500 ms
(the spec's worked example), starting from the fresh tracker. -/
def micExample : MicState :=
  processBeat 2000 (processBeat 1500 (processBeat 1005
    (processBeat 500 (processBeat 0 initMic))))

end Mic

namespace Metronome

theorem stop_tempo (s : State) : (stop s).tempo = s.tempo := by
  simp only [stop]; split <;> rfl

theorem start_tempo (s : State) : (start s).tempo = s.tempo := by
  simp only [start]; split <;> rfl

theorem setTempo_tempo (t : ℤ) (s : State) :
    (setTempo t s).tempo = max 30 (min 300 t) := by
  simp only [setTempo]
  split
  · rw [start_tempo, stop_tempo]
  · rfl

theorem start_isPlaying (s : State) : (start s).isPlaying = true := by
  simp only [start]; split
  · assumption
  · rfl

theorem stop_isPlaying (s : State) : (stop s).isPlaying = false := by
  simp only [stop]; split
  · rfl
  · simp_all

theorem nextBar_isPlaying (s : State) : (nextBar s).isPlaying = s.isPlaying := by
  simp only [nextBar]; split_ifs <;> rfl

theorem nextBeat_isPlaying (s : State) : (nextBeat s).isPlaying = s.isPlaying := by
  simp only [nextBeat]; split_ifs <;> simp [nextBar_isPlaying]

theorem nextSubdivision_isPlaying (s : State) :
    (nextSubdivision s).isPlaying = s.isPlaying := by
  simp only [nextSubdivision]; split_ifs <;> simp [nextBeat_isPlaying]

theorem c4_key (n : ℕ) :
    nextSubdivision^[n] (start initState) = c4State n := by
  induction n with
  | zero =>
      norm_num [start, initState, resetPattern, subdivisionsPerBeat, c4State]
  | succ n ih =>
      rw [Function.iterate_succ_apply', ih]
      have h4 : n % 4 = 0 ∨ n % 4 = 1 ∨ n % 4 = 2 ∨ n % 4 = 3 := by omega
      rcases h4 with h | h | h | h
      all_goals
        first
        | (have e1 : (n + 1) % 4 = n % 4 + 1 := by omega
           have e2 : (n + 1) / 4 = n / 4 := by omega
           simp [nextSubdivision, nextBeat, nextBar, subdivisionsPerBeat, c4State, h, e1, e2])
        | (have e1 : (n + 1) % 4 = 0 := by omega
           have e2 : (n + 1) / 4 = n / 4 + 1 := by omega
           simp [nextSubdivision, nextBeat, nextBar, subdivisionsPerBeat, c4State, h, e1, e2])

/-- C4: with 4 beats per bar and quarter subdivision, starting fresh
from start(), the n-th tick after the initial one is at beat position
(n mod 4 + 1, 0) - so the positions cycle (1,0),(2,0),(3,0),(4,0),(1,0),...
indefinitely - and the bar counter equals n / 4, incrementing exactly
once per 4 ticks past the first. -/
theorem C4_quarter_tick_cycle (n : ℕ) :
    (nextSubdivision^[n] (start initState)).currentBeat = n % 4 + 1 ∧
    (nextSubdivision^[n] (start initState)).currentSubdivision = 0 ∧
    (nextSubdivision^[n] (start initState)).barCount = n / 4 := by
  rw [c4_key n]; exact ⟨rfl, rfl, rfl⟩

/-- C5: in pattern mode with activeBars 2 and silentBarsPattern 1,
starting from a fresh session, bar 1 and bar 2 are audible (isSilent
false), bar 3 is silent, and the audible/audible/silent pattern repeats
with period 3 (the state after k bar-ends determines bar k+1). -/
theorem C5_pattern_period_three :
    (nextBar^[0] patternSession).isSilent = false ∧
    (nextBar^[1] patternSession).isSilent = false ∧
    (nextBar^[2] patternSession).isSilent = true ∧
    ∀ k : ℕ, (nextBar^[k + 3] patternSession).isSilent =
      (nextBar^[k] patternSession).isSilent := by
  have h3 : nextBar^[3] patternSession = patternSession := by decide
  refine ⟨by decide, by decide, by decide, fun k => ?_⟩
  rw [Function.iterate_add_apply, h3]

/-- C6: for every integer input t, setTempo stores exactly
clamp(t, 30, 300); the operation is total, so out-of-range input is
silently clamped and never rejected. -/
theorem C6_setTempo_clamps (t : ℤ) (s : State) :
    (setTempo t s).tempo = max 30 (min 300 t) :=
  setTempo_tempo t s

end Metronome

namespace Metronome

/-- C1 counterexample: with the metronome running at the defaults (tempo
120, quarter subdivision, timer interval 500 ms), setSubdivision eighth
leaves the armed timer at 500 ms, whereas the claimed stop-apply-start
behaviour would re-arm it at 250 ms; so setSubdivision while Running is
not stop(); applyChange(); start(). -/
theorem C1_setSubdivision_not_restart :
    (setSubdivision Subdivision.eighth (start initState)).intervalId = some 500 ∧
    (start (setSubdivision Subdivision.eighth (stop (start initState)))).intervalId =
      some 250 ∧
    setSubdivision Subdivision.eighth (start initState) ≠
      start (setSubdivision Subdivision.eighth (stop (start initState))) := by
  have h1 : (setSubdivision Subdivision.eighth (start initState)).intervalId = some 500 := by
    norm_num [setSubdivision, start, stop, initState, resetPattern, subdivisionsPerBeat]
  have h2 : (start (setSubdivision Subdivision.eighth
      (stop (start initState)))).intervalId = some 250 := by
    norm_num [setSubdivision, start, stop, initState, resetPattern, subdivisionsPerBeat]
  refine ⟨h1, h2, fun he => ?_⟩
  rw [he, h2] at h1
  have : (250 : ℚ) = 500 := by injection h1
  norm_num at this

/-- C1 amended: while Running, only setTempo restarts the clock - it
cancels and re-arms the timer with the interval recomputed from the
clamped new tempo and resets the position to (1, 0).  setTimeSignature
leaves the armed timer interval untouched and resets only currentBeat
(not currentSubdivision), and setSubdivision changes the stored
subdivision alone, leaving both the timer and the beat position as they
were. -/
theorem C1_amended_setters_while_running (s : State) (hp : s.isPlaying = true)
    (t : ℤ) (n d : ℕ) (sub : Subdivision) :
    ((setTempo t s).intervalId =
        some ((60000 / ((max 30 (min 300 t) : ℤ) : ℚ)) /
          (subdivisionsPerBeat s.subdivision : ℚ)) ∧
      (setTempo t s).currentBeat = 1 ∧
      (setTempo t s).currentSubdivision = 0 ∧
      (setTempo t s).isPlaying = true) ∧
    ((setTimeSignature n d s).intervalId = s.intervalId ∧
      (setTimeSignature n d s).currentBeat = 1 ∧
      (setTimeSignature n d s).currentSubdivision = s.currentSubdivision ∧
      (setTimeSignature n d s).isPlaying = s.isPlaying) ∧
    ((setSubdivision sub s).intervalId = s.intervalId ∧
      (setSubdivision sub s).currentBeat = s.currentBeat ∧
      (setSubdivision sub s).currentSubdivision = s.currentSubdivision ∧
      (setSubdivision sub s).subdivision = sub) := by
  refine ⟨?_, ?_, ?_⟩
  · simp [setTempo, hp, start, stop, resetPattern]
  · simp [setTimeSignature, setBeatsPerBar, resetPattern]
  · simp [setSubdivision]

/-- C1 witness: concrete instance of the amended claim at the freshly
started default state. -/
theorem C1_amended_witness :
    (setTempo 600 (start initState)).currentBeat = 1 ∧
    (setSubdivision Subdivision.sixteenth (start initState)).intervalId =
      (start initState).intervalId :=
  ⟨(C1_amended_setters_while_running (start initState) (start_isPlaying initState)
      600 4 4 Subdivision.sixteenth).1.2.1,
   (C1_amended_setters_while_running (start initState) (start_isPlaying initState)
      600 4 4 Subdivision.sixteenth).2.2.1⟩

/-- C3 counterexample: with EmphasisSet containing beat 1, subdivision
sounds enabled, and the position at beat 1 subdivision 1, the tick
classifies as emphasized, contradicting the claim that any tick with
currentSubdivision greater than 0 classifies as subdivision and never as
emphasized. -/
theorem C3_emphasized_subdivision_counterexample :
    playBeatClass { initState with currentSubdivision := 1,
                                   playSubdivisionSounds := true } =
      some ClickKind.emphasized ∧
    some ClickKind.emphasized ≠ some ClickKind.subdivision := by
  exact ⟨by decide, by decide⟩

/-- C3 amended: for every non-silenced tick, the tick is suppressed
exactly when currentSubdivision is nonzero and subdivision sounds are
off; it classifies emphasized exactly when currentBeat is in the
EmphasisSet (regardless of the subdivision position, provided the tick
sounds); mainBeat exactly when currentSubdivision is 0 and the beat is
not emphasized; and subdivision exactly when currentSubdivision is
nonzero, subdivision sounds are on, and the beat is not in the
EmphasisSet. -/
theorem C3_amended_classification (s : State) (hs : shouldBeSilent s = false) :
    (playBeatClass s = none ↔
      s.currentSubdivision ≠ 0 ∧ s.playSubdivisionSounds = false) ∧
    (playBeatClass s = some ClickKind.emphasized ↔
      (s.currentSubdivision = 0 ∨ s.playSubdivisionSounds = true) ∧
        s.currentBeat ∈ s.emphasizedBeats) ∧
    (playBeatClass s = some ClickKind.mainBeat ↔
      s.currentSubdivision = 0 ∧ s.currentBeat ∉ s.emphasizedBeats) ∧
    (playBeatClass s = some ClickKind.subdivision ↔
      s.currentSubdivision ≠ 0 ∧ s.playSubdivisionSounds = true ∧
        s.currentBeat ∉ s.emphasizedBeats) := by
  by_cases hm : s.currentSubdivision = 0 <;>
    by_cases hp : s.playSubdivisionSounds <;>
      by_cases he : s.currentBeat ∈ s.emphasizedBeats <;>
        simp [playBeatClass, classicClick, hs, hm, hp, he, List.contains,
          List.elem_eq_mem]

/-- C3 witness: concrete instance of the amended classification - beat 2
with subdivision 0 and default emphasis on beat 1 classifies mainBeat. -/
theorem C3_amended_witness :
    playBeatClass { initState with currentBeat := 2 } = some ClickKind.mainBeat :=
  ((C3_amended_classification { initState with currentBeat := 2 }
      (by decide)).2.2.1).mpr ⟨rfl, by decide⟩

end Metronome

namespace Mic

/-- C2: on any analysis frame that passes the minBeatInterval debounce,
the enhanced detector fires whenever ANY of the following holds: the
overall volume exceeds the mode-scaled volume threshold, the sub-band
volume exceeds the mode-scaled frequency threshold, the spectral-flux
onset strength exceeds the mode-scaled onset threshold, or at least two
of the four indicators (volume, band volume, onset strength, and the
recent-volume ratio against 1.3) cross their thresholds at once. -/
theorem C2_detector_fires (now lastBeatTime minBeatInterval : ℤ)
    (mode : DetectionMode) (bt ot : ℚ) (hist : List ℤ)
    (volume freqVol onset : ℚ)
    (hdeb : minBeatInterval ≤ now - lastBeatTime)
    (hfire :
      (getDetectionThresholds mode bt ot).volume < volume ∨
      (getDetectionThresholds mode bt ot).frequency < freqVol ∨
      (getDetectionThresholds mode bt ot).onset < onset ∨
      2 ≤ ((if (getDetectionThresholds mode bt ot).volume < volume then 1 else 0) +
           (if (getDetectionThresholds mode bt ot).frequency < freqVol then 1 else 0) +
           (if (getDetectionThresholds mode bt ot).onset < onset then 1 else 0) +
           (if 2 ≤ (lastN 5 hist).length ∧
                (13/10 : ℚ) < volume / (meanQ (lastN 5 hist) + 1/1000)
            then 1 else 0) : ℕ)) :
    detectBeatEnhanced now lastBeatTime minBeatInterval mode bt ot hist
      volume freqVol onset = true := by
  unfold detectBeatEnhanced
  rw [if_neg (by omega)]
  rcases hfire with h | h | h | h
  · simp [h]
  · simp [h]
  · simp [h]
  · simp
    exact Or.inr (by simpa using h)

/-- C2 witness: a loud frame in mixed mode, 1000 ms after the previous
beat with a 200 ms debounce, fires the detector. -/
theorem C2_detector_fires_witness :
    detectBeatEnhanced 1000 0 200 DetectionMode.mixed (1/2) (1/20) [] 1 0 0 = true :=
  C2_detector_fires 1000 0 200 DetectionMode.mixed (1/2) (1/20) [] 1 0 0
    (by norm_num) (Or.inl (by norm_num [getDetectionThresholds]))

end Mic

namespace Metronome

theorem setTempo_tapTimes (t : ℤ) (s : State) :
    (setTempo t s).tapTimes = s.tapTimes := by
  simp only [setTempo, start, stop, resetPattern]
  split_ifs <;> rfl

/-- C7: each tap appends its timestamp and evicts the oldest beyond a
window of 4; with at least 2 timestamps the estimate is the rounded
value of 60000 over the mean consecutive interval, applied as the new
tempo exactly when it lies in 30..300; in particular taps at 0, 500,
1000 and 1500 ms leave the stored tempo at exactly 120 BPM. -/
theorem C7_tap_tempo (s : State) (now : ℤ) (l2 : List ℤ)
    (hlen : s.tapTimes.length ≤ 4)
    (hl2 : l2 = (s.tapTimes ++ [now]).drop ((s.tapTimes ++ [now]).length - 4)) :
    (tapTempo now s).tapTimes = l2 ∧
    (2 ≤ l2.length → 30 ≤ bpmOfTimes l2 → bpmOfTimes l2 ≤ 300 →
      (tapTempo now s).tempo = bpmOfTimes l2) ∧
    (l2.length < 2 → (tapTempo now s).tempo = s.tempo) ∧
    (bpmOfTimes l2 < 30 ∨ 300 < bpmOfTimes l2 → (tapTempo now s).tempo = s.tempo) ∧
    (tapTempo 1500 (tapTempo 1000 (tapTempo 500 (tapTempo 0 initState)))).tempo = 120 := by
  have hlen1 : (s.tapTimes ++ [now]).length = s.tapTimes.length + 1 := by simp
  have hcode : (if 4 < (s.tapTimes ++ [now]).length then (s.tapTimes ++ [now]).tail
      else s.tapTimes ++ [now]) = l2 := by
    rw [hl2]
    by_cases h : 4 < (s.tapTimes ++ [now]).length
    · rw [if_pos h]
      have h5 : (s.tapTimes ++ [now]).length - 4 = 1 := by omega
      rw [h5, List.drop_one]
    · rw [if_neg h]
      have h0 : (s.tapTimes ++ [now]).length - 4 = 0 := by omega
      rw [h0, List.drop_zero]
  have hexample :
      (tapTempo 1500 (tapTempo 1000 (tapTempo 500 (tapTempo 0 initState)))).tempo = 120 := by
    norm_num [tapTempo, bpmOfTimes, diffs, meanQ, setTempo, initState, round_eq]
  refine ⟨?_, ?_, ?_, ?_, hexample⟩
  · simp only [tapTempo, hcode]
    split_ifs with h1 h2
    · rw [setTempo_tapTimes]
    · rfl
    · rfl
  · intro hl hlo hhi
    simp only [tapTempo, hcode]
    rw [if_pos hl, if_pos ⟨hlo, hhi⟩, setTempo_tempo]
    omega
  · intro hl
    simp only [tapTempo, hcode]
    rw [if_neg (by omega)]
  · intro hout
    simp only [tapTempo, hcode]
    split_ifs with h1 h2
    · rcases hout with h | h <;> omega
    · rfl
    · rfl

/-- C7 witness: concrete instance - the first tap stores its timestamp,
and the four-tap example yields tempo 120. -/
theorem C7_tap_tempo_witness :
    (tapTempo 0 initState).tapTimes = [0] ∧
    (tapTempo 1500 (tapTempo 1000 (tapTempo 500 (tapTempo 0 initState)))).tempo = 120 := by
  have h := C7_tap_tempo initState 0 [0] (by decide) (by decide)
  exact ⟨h.1, h.2.2.2.2⟩

end Metronome


namespace Mic

theorem diffs_of_short (l : List ℤ) (h : l.length < 2) : Metronome.diffs l = [] := by
  cases l with
  | nil => rfl
  | cons a t =>
      cases t with
      | nil => rfl
      | cons b t2 => simp only [List.length_cons] at h; omega

theorem fifo5_eq_lastN (l : List ℤ) (bpm : ℤ) (h : l.length ≤ 5) :
    fifo5 (l ++ [bpm]) = lastN 5 (l ++ [bpm]) := by
  unfold fifo5 lastN
  by_cases h5 : 5 < (l ++ [bpm]).length
  · rw [if_pos h5]
    have h1 : (l ++ [bpm]).length - 5 = 1 := by
      simp only [List.length_append, List.length_cons, List.length_nil] at h5 ⊢
      omega
    rw [h1, List.drop_one]
  · rw [if_neg h5]
    have h0 : (l ++ [bpm]).length - 5 = 0 := by
      simp only [List.length_append, List.length_cons, List.length_nil] at h5 ⊢
      omega
    rw [h0, List.drop_zero]

theorem calculateTempo_spec (s : MicState) (hh : s.tempoHistory.length ≤ 5) :
    (validIntervals s = [] → calculateTempo s = s) ∧
    (∀ bpm : ℤ, bpm = round ((60000 : ℚ) / meanQ (validIntervals s)) →
      (30 ≤ bpm → bpm ≤ 300 → validIntervals s ≠ [] →
        calculateTempo s =
          { s with tempoHistory := lastN 5 (s.tempoHistory ++ [bpm]),
                   detectedTempo := round (meanQ (lastN 5 (s.tempoHistory ++ [bpm]))) }) ∧
      (bpm < 30 ∨ 300 < bpm → calculateTempo s = s)) := by
  constructor
  · intro hiv
    unfold calculateTempo
    rw [hiv]
    simp
  · intro bpm hbpm
    constructor
    · intro hlo hhi hne
      have hlen : ¬ s.beatHistory.length < 2 := by
        intro hshort
        exact hne (by simp [validIntervals, diffs_of_short _ hshort])
      unfold calculateTempo
      rw [if_neg hlen, if_neg hne, ← hbpm, if_pos ⟨hlo, hhi⟩,
        fifo5_eq_lastN s.tempoHistory bpm hh]
    · intro hout
      unfold calculateTempo
      split_ifs with h1 h2 h3
      · rfl
      · rfl
      · rw [← hbpm] at h3
        rcases hout with h | h <;> omega
      · rfl

/-- C8: each detected onset is appended to the beat history pruned to
the last 10 seconds; when at least two onsets remain, the consecutive
intervals outside minBeatInterval..maxBeatInterval are discarded, the
rest averaged and rounded to a BPM, and exactly when that BPM lies in
30..300 it is pushed into the 5-entry tempo FIFO whose rounded mean
becomes detectedTempo; when every interval is filtered out nothing is
updated and no error occurs. -/
theorem C8_mic_tempo_tracking (s : MicState) (now : ℤ) (pruned ivs : List ℤ)
    (hh : s.tempoHistory.length ≤ 5)
    (hpr : pruned = (s.beatHistory ++ [now]).filter (fun t => now - 10000 < t))
    (hiv : ivs = (Metronome.diffs pruned).filter
      (fun i => s.minBeatInterval ≤ i ∧ i ≤ s.maxBeatInterval)) :
    (processBeat now s).beatHistory = pruned ∧
    (processBeat now s).lastBeatTime = now ∧
    (ivs = [] → (processBeat now s).tempoHistory = s.tempoHistory ∧
      (processBeat now s).detectedTempo = s.detectedTempo) ∧
    (∀ bpm : ℤ, bpm = round ((60000 : ℚ) / meanQ ivs) →
      (30 ≤ bpm → bpm ≤ 300 → ivs ≠ [] →
        (processBeat now s).tempoHistory = lastN 5 (s.tempoHistory ++ [bpm]) ∧
        (processBeat now s).detectedTempo =
          round (meanQ (lastN 5 (s.tempoHistory ++ [bpm])))) ∧
      (bpm < 30 ∨ 300 < bpm →
        (processBeat now s).tempoHistory = s.tempoHistory ∧
        (processBeat now s).detectedTempo = s.detectedTempo)) := by
  have hprune : prune now s.beatHistory = pruned := by rw [hpr]; rfl
  have hvi : validIntervals { s with lastBeatTime := now, beatHistory := pruned } = ivs := by
    rw [hiv]; rfl
  have hspec := calculateTempo_spec { s with lastBeatTime := now, beatHistory := pruned }
    (by simpa using hh)
  rw [hvi] at hspec
  have hpb : processBeat now s =
      (if 2 ≤ pruned.length then
        calculateTempo { s with lastBeatTime := now, beatHistory := pruned }
       else { s with lastBeatTime := now, beatHistory := pruned }) := by
    unfold processBeat
    rw [hprune]
  by_cases h2 : 2 ≤ pruned.length
  · rw [hpb, if_pos h2]
    have hbh :
        (calculateTempo { s with lastBeatTime := now, beatHistory := pruned }).beatHistory
          = pruned := by
      rcases Classical.em (ivs = []) with hiv0 | hiv0
      · rw [hspec.1 hiv0]
      · have hb := hspec.2 (round ((60000 : ℚ) / meanQ ivs)) rfl
        by_cases hr : 30 ≤ round ((60000 : ℚ) / meanQ ivs) ∧
            round ((60000 : ℚ) / meanQ ivs) ≤ 300
        · rw [hb.1 hr.1 hr.2 hiv0]
        · have hout : round ((60000 : ℚ) / meanQ ivs) < 30 ∨
              300 < round ((60000 : ℚ) / meanQ ivs) := by omega
          rw [hb.2 hout]
    refine ⟨hbh, ?_, ?_, ?_⟩
    · rcases Classical.em (ivs = []) with hiv0 | hiv0
      · rw [hspec.1 hiv0]
      · have hb := hspec.2 (round ((60000 : ℚ) / meanQ ivs)) rfl
        by_cases hr : 30 ≤ round ((60000 : ℚ) / meanQ ivs) ∧
            round ((60000 : ℚ) / meanQ ivs) ≤ 300
        · rw [hb.1 hr.1 hr.2 hiv0]
        · have hout : round ((60000 : ℚ) / meanQ ivs) < 30 ∨
              300 < round ((60000 : ℚ) / meanQ ivs) := by omega
          rw [hb.2 hout]
    · intro hiv0
      rw [hspec.1 hiv0]
      exact ⟨rfl, rfl⟩
    · intro bpm hbpm
      have hb := hspec.2 bpm hbpm
      exact ⟨fun hlo hhi hne => by rw [hb.1 hlo hhi hne]; exact ⟨rfl, rfl⟩,
             fun hout => by rw [hb.2 hout]; exact ⟨rfl, rfl⟩⟩
  · rw [hpb, if_neg h2]
    have hiv0 : ivs = [] := by
      rw [hiv, diffs_of_short pruned (by omega)]
      rfl
    refine ⟨rfl, rfl, fun _ => ⟨rfl, rfl⟩, fun bpm hbpm => ⟨?_, fun _ => ⟨rfl, rfl⟩⟩⟩
    intro _ _ hne
    exact absurd hiv0 hne

/-- C8 witness: from a tracker holding one onset at time 0, an onset at
500 ms yields the valid interval 500, BPM 120, a tempo history holding
the single entry 120, and detectedTempo 120. -/
theorem C8_mic_tempo_tracking_witness :
    (processBeat 500
      { beatHistory := [0], lastBeatTime := 0, minBeatInterval := 200,
        maxBeatInterval := 2000, detectedTempo := 120,
        tempoHistory := [] }).tempoHistory = [120] ∧
    (processBeat 500
      { beatHistory := [0], lastBeatTime := 0, minBeatInterval := 200,
        maxBeatInterval := 2000, detectedTempo := 120,
        tempoHistory := [] }).detectedTempo = 120 := by
  have h := C8_mic_tempo_tracking
    { beatHistory := [0], lastBeatTime := 0, minBeatInterval := 200,
      maxBeatInterval := 2000, detectedTempo := 120, tempoHistory := [] }
    500 [0, 500] [500] (by decide) (by decide) (by decide)
  have hbpm : (120 : ℤ) = round ((60000 : ℚ) / meanQ [500]) := by
    norm_num [meanQ, round_eq]
  have hb := (h.2.2.2 120 hbpm).1 (by norm_num) (by norm_num) (by decide)
  refine ⟨?_, ?_⟩
  · rw [hb.1]; decide
  · rw [hb.2]
    norm_num [lastN, meanQ, round_eq]

end Mic

namespace Mic

/-- C9 counterexample: when the tempo history holds a single entry the
code sets confidence 0, while the claimed formula gives
max(0, min(100, 100 - 2 x stddev)) = 100 (stddev of a singleton is 0);
so the claim fails for histories shorter than 2. -/
theorem C9_short_history_counterexample :
    calculateConfidence [120] = 0 ∧
    max 0 (min 100 (100 - 2 * Real.sqrt ((varianceQ [120] : ℚ) : ℝ))) = 100 ∧
    calculateConfidence [120] ≠
      max 0 (min 100 (100 - 2 * Real.sqrt ((varianceQ [120] : ℚ) : ℝ))) := by
  have hvar : varianceQ [120] = 0 := by norm_num [varianceQ, meanQ]
  have h1 : calculateConfidence [120] = 0 := by simp [calculateConfidence]
  have h2 : max 0 (min 100 (100 - 2 * Real.sqrt ((varianceQ [120] : ℚ) : ℝ))) = 100 := by
    rw [hvar]
    norm_num [Real.sqrt_zero]
  refine ⟨h1, h2, ?_⟩
  rw [h1, h2]
  norm_num

theorem micExample_state :
    micExample =
      { beatHistory := [0, 500, 1005, 1500, 2000], lastBeatTime := 2000,
        minBeatInterval := 200, maxBeatInterval := 2000, detectedTempo := 120,
        tempoHistory := [120, 119, 120, 120] } := by
  have e1 : processBeat 0 initMic =
      { beatHistory := [0], lastBeatTime := 0, minBeatInterval := 200,
        maxBeatInterval := 2000, detectedTempo := 120, tempoHistory := [] } := by
    norm_num [processBeat, prune, calculateTempo, validIntervals, initMic,
      Metronome.diffs, meanQ, fifo5, round_eq]
  have e2 : processBeat 500
      { beatHistory := [0], lastBeatTime := 0, minBeatInterval := 200,
        maxBeatInterval := 2000, detectedTempo := 120, tempoHistory := [] } =
      { beatHistory := [0, 500], lastBeatTime := 500, minBeatInterval := 200,
        maxBeatInterval := 2000, detectedTempo := 120, tempoHistory := [120] } := by
    norm_num [processBeat, prune, calculateTempo, validIntervals,
      Metronome.diffs, meanQ, fifo5, round_eq]
  have e3 : processBeat 1005
      { beatHistory := [0, 500], lastBeatTime := 500, minBeatInterval := 200,
        maxBeatInterval := 2000, detectedTempo := 120, tempoHistory := [120] } =
      { beatHistory := [0, 500, 1005], lastBeatTime := 1005, minBeatInterval := 200,
        maxBeatInterval := 2000, detectedTempo := 120, tempoHistory := [120, 119] } := by
    norm_num [processBeat, prune, calculateTempo, validIntervals,
      Metronome.diffs, meanQ, fifo5, round_eq]
    simp
  have e4 : processBeat 1500
      { beatHistory := [0, 500, 1005], lastBeatTime := 1005, minBeatInterval := 200,
        maxBeatInterval := 2000, detectedTempo := 120, tempoHistory := [120, 119] } =
      { beatHistory := [0, 500, 1005, 1500], lastBeatTime := 1500, minBeatInterval := 200,
        maxBeatInterval := 2000, detectedTempo := 120,
        tempoHistory := [120, 119, 120] } := by
    norm_num [processBeat, prune, calculateTempo, validIntervals,
      Metronome.diffs, meanQ, fifo5, round_eq]
    simp
  have e5 : processBeat 2000
      { beatHistory := [0, 500, 1005, 1500], lastBeatTime := 1500, minBeatInterval := 200,
        maxBeatInterval := 2000, detectedTempo := 120,
        tempoHistory := [120, 119, 120] } =
      { beatHistory := [0, 500, 1005, 1500, 2000], lastBeatTime := 2000,
        minBeatInterval := 200, maxBeatInterval := 2000, detectedTempo := 120,
        tempoHistory := [120, 119, 120, 120] } := by
    norm_num [processBeat, prune, calculateTempo, validIntervals,
      Metronome.diffs, meanQ, fifo5, round_eq]
    simp
  unfold micExample
  rw [e1, e2, e3, e4, e5]

/-- C9 amended: for tempo histories of at least 2 entries the recomputed
confidence equals max(0, min(100, 100 - 2 x stddev(tempoHistory))); for
shorter histories it is 0; the score is antitone in the variance and
saturates at 0 and 100; and on the example run with onset intervals
500, 505, 495, 500 ms the reported tempo is 120 BPM with confidence
above 90. -/
theorem C9_amended_confidence (l0 : List ℤ) (hl0 : 2 ≤ l0.length) :
    calculateConfidence l0 =
      max 0 (min 100 (100 - 2 * Real.sqrt ((varianceQ l0 : ℚ) : ℝ))) ∧
    (∀ l : List ℤ, l.length < 2 → calculateConfidence l = 0) ∧
    (∀ v w : ℝ, v ≤ w → confOfVar w ≤ confOfVar v) ∧
    (∀ l : List ℤ, 0 ≤ calculateConfidence l ∧ calculateConfidence l ≤ 100) ∧
    (micExample.detectedTempo = 120 ∧
      90 < calculateConfidence micExample.tempoHistory) := by
  have hformula : ∀ l : List ℤ, 2 ≤ l.length → calculateConfidence l =
      max 0 (min 100 (100 - 2 * Real.sqrt ((varianceQ l : ℚ) : ℝ))) := by
    intro l hl
    unfold calculateConfidence
    rw [if_neg (by omega)]
    rfl
  have hanti : ∀ v w : ℝ, v ≤ w → confOfVar w ≤ confOfVar v := by
    intro v w hvw
    unfold confOfVar
    have hs : Real.sqrt v ≤ Real.sqrt w := Real.sqrt_le_sqrt hvw
    exact max_le_max le_rfl (min_le_min le_rfl (by linarith))
  have hsat : ∀ l : List ℤ, 0 ≤ calculateConfidence l ∧ calculateConfidence l ≤ 100 := by
    intro l
    unfold calculateConfidence confOfVar
    split_ifs
    · norm_num
    · constructor
      · exact le_max_left _ _
      · exact max_le (by norm_num) (min_le_left _ _)
  have hvar : varianceQ [120, 119, 120, 120] = 3/16 := by
    norm_num [varianceQ, meanQ]
  have hth : micExample.tempoHistory = [120, 119, 120, 120] := by
    rw [micExample_state]
  have hconf : 90 < calculateConfidence micExample.tempoHistory := by
    rw [hth, hformula [120, 119, 120, 120] (by norm_num), hvar]
    have hcast : (((3 : ℚ)/16 : ℚ) : ℝ) = 3/16 := by norm_num
    rw [hcast]
    have hs5 : Real.sqrt (3/16) < 5 := by
      rw [show (5 : ℝ) = Real.sqrt 25 by
        rw [show (25 : ℝ) = 5 ^ 2 by norm_num, Real.sqrt_sq (by norm_num)]]
      exact Real.sqrt_lt_sqrt (by norm_num) (by norm_num)
    have hs0 : 0 ≤ Real.sqrt (3/16) := Real.sqrt_nonneg _
    have hc1 : (90 : ℝ) < 100 - 2 * Real.sqrt (3/16) := by linarith
    have hc2 : 100 - 2 * Real.sqrt (3/16) ≤ 100 := by linarith
    rw [min_eq_right hc2, max_eq_right (by linarith)]
    exact hc1
  have hdt : micExample.detectedTempo = 120 := by rw [micExample_state]
  exact ⟨hformula l0 hl0, fun l hl => by unfold calculateConfidence; rw [if_pos hl],
    hanti, hsat, hdt, hconf⟩

/-- C9 witness: concrete instance of the amended claim at the example
history - the run reports tempo 120 with confidence above 90. -/
theorem C9_amended_confidence_witness :
    micExample.detectedTempo = 120 ∧
      90 < calculateConfidence micExample.tempoHistory :=
  (C9_amended_confidence [120, 119, 120, 120] (by norm_num)).2.2.2.2

end Mic

namespace Metronome

theorem stoppedInv_setTempo (t : ℤ) (s : State) (hinv : stoppedInv s) :
    stoppedInv (setTempo t s) := by
  intro h
  by_cases hp : s.isPlaying = true
  · have hpl : (setTempo t s).isPlaying = true := by
      simp [setTempo, hp, start_isPlaying]
    rw [hpl] at h
    cases h
  · have hf : s.isPlaying = false := by simpa using hp
    have hs : setTempo t s = { s with tempo := max 30 (min 300 t) } := by
      simp [setTempo, hf]
    rw [hs]
    exact hinv hf

/-- C10: stop() resets currentSubdivision to 0 in addition to
currentBeat to 1 whenever the clock is running; the invariant that
every stopped state sits at position (1, 0) - the position start()
establishes - holds initially and is preserved by every operation of
the core, so after stop() the position always equals (1, 0). -/
theorem C10_stop_resets_subdivision :
    (∀ s : State, s.isPlaying = true →
      (stop s).currentBeat = 1 ∧ (stop s).currentSubdivision = 0 ∧
        (stop s).isPlaying = false) ∧
    (∀ s : State, stoppedInv s →
      (stop s).currentBeat = 1 ∧ (stop s).currentSubdivision = 0) ∧
    (∀ s : State, s.isPlaying = false →
      (start s).currentBeat = 1 ∧ (start s).currentSubdivision = 0) ∧
    stoppedInv initState ∧
    (∀ s : State, stoppedInv s →
      stoppedInv (start s) ∧ stoppedInv (stop s) ∧
      (∀ t, stoppedInv (setTempo t s)) ∧
      (∀ d, stoppedInv (adjustTempo d s)) ∧
      (∀ now, stoppedInv (tapTempo now s)) ∧
      (∀ b, stoppedInv (setBeatsPerBar b s)) ∧
      (∀ n d, stoppedInv (setTimeSignature n d s)) ∧
      (∀ sub, stoppedInv (setSubdivision sub s)) ∧
      (∀ m, stoppedInv (setPatternMode m s)) ∧
      (∀ b, stoppedInv (setMutePattern b s)) ∧
      (∀ l, stoppedInv (setEmphasizedBeats l s)) ∧
      stoppedInv (resetCounters s) ∧
      (s.isPlaying = true → stoppedInv (nextSubdivision s))) := by
  refine ⟨?_, ?_, ?_, fun _ => ⟨rfl, rfl⟩, ?_⟩
  · intro s hp
    simp [stop, hp]
  · intro s hinv
    by_cases hp : s.isPlaying = true
    · simp [stop, hp]
    · have hf : s.isPlaying = false := by simpa using hp
      have hs : stop s = s := by simp [stop, hf]
      rw [hs]
      exact hinv hf
  · intro s hf
    simp [start, hf, resetPattern]
  · intro s hinv
    refine ⟨?_, ?_, fun t => stoppedInv_setTempo t s hinv, ?_, ?_,
      fun b h => ⟨rfl, (hinv h).2⟩, fun n d h => ⟨rfl, (hinv h).2⟩,
      fun sub h => hinv h, fun m h => hinv h, fun b h => hinv h,
      fun l h => hinv h, fun h => hinv h, ?_⟩
    · intro h
      rw [start_isPlaying] at h
      cases h
    · intro h
      by_cases hp : s.isPlaying = true
      · simp [stop, hp]
      · have hf : s.isPlaying = false := by simpa using hp
        have hs : stop s = s := by simp [stop, hf]
        rw [hs]
        exact hinv hf
    · intro d
      exact stoppedInv_setTempo (s.tempo + d) s hinv
    · intro now
      simp only [tapTempo]
      split_ifs <;>
        first
        | exact stoppedInv_setTempo _ _ (fun h => hinv h)
        | exact fun h => hinv h
    · intro hpl h
      rw [nextSubdivision_isPlaying, hpl] at h
      cases h

/-- C10 witness: stopping the freshly started default metronome leaves
it at beat position (1, 0). -/
theorem C10_stop_resets_subdivision_witness :
    (stop (start initState)).currentBeat = 1 ∧
      (stop (start initState)).currentSubdivision = 0 :=
  ⟨(C10_stop_resets_subdivision.1 (start initState) (start_isPlaying initState)).1,
   (C10_stop_resets_subdivision.1 (start initState) (start_isPlaying initState)).2.1⟩

end Metronome
